import Mathlib

/-!
Shallow embedding of `src/generator/main.py` (recipe batch generator).

The program reads a list of work items from `recipes.yml`, skips every item
whose target file already exists under the docs directory, calls the Azure
chat-completions client for the rest, writes the returned text to disk, and
finally rewrites the `nav` section of `mkdocs.yml`.

Modelling conventions:
- YAML values are the inductive `Yaml`; Python dicts are association lists
  with keys `YKey` (strings or `None`), preserving insertion order.
- `dict.get(k)` is `pyGet`: it returns `none` both for a missing key and for
  a stored `null` value, exactly as Python conflates the two.
- The filesystem is `FS := String → Option String`, keyed by path strings;
  `Path.__truediv__` is string concatenation with a slash (`pathJoin`).
- The network client is a parameter `Client := Request → Except String Response`;
  each call made is recorded in a `calls` trace. A raised Python exception is
  the `Except.error` case; filesystem effects performed before the exception
  survive, so runs return a record with the filesystem, the call trace, and an
  `Except` result rather than a bare `Except`.
- The float sampling constants TEMPERATURE and TOP_P are fixed opaque literals
  of the request and are not given numeric values in the model; the integer
  `max_tokens` and the model name are carried explicitly.
- `yaml.safe_load` and `yaml.dump` are external-library parameters `parse`
  and `dump` of `main` and `update_mkdocs_nav`.
-/

namespace RecipeGen

/-- Keys of a Python dict as they occur here: strings or `None`. -/
inductive YKey where
  | null
  | str (s : String)
deriving DecidableEq

/-- YAML values as Python objects: `None`, strings, lists, dicts. -/
inductive Yaml where
  | null
  | str (s : String)
  | list (xs : List Yaml)
  | map (kvs : List (YKey × Yaml))

/-- One chat-completions request: arguments of `client.complete` in
`generate_recipe` (line 57). The prompt is the raw `item.get("prompt")`
value, possibly `None`. -/
structure Request where
  system_message : String
  prompt : Option Yaml
  model : String
  max_tokens : Nat

/-- The part of the API response the program reads:
`response.choices[0].message.content` and `response.usage.total_tokens`. -/
structure Response where
  content : String
  total_tokens : Nat
deriving DecidableEq

/-- The completion API: one network call per application. `Except.error`
models a raised network/authentication exception. -/
abbrev Client := Request → Except String Response

/-- The filesystem: path string to file content. -/
abbrev FS := String → Option String

/-- `MODEL_NAME = "gpt-4.1"` (line 15). -/
def MODEL_NAME : String := "gpt-4.1"

/-- `MAX_TOKENS = 30000` (line 18). -/
def MAX_TOKENS : Nat := 30000

/-- `write_text` (lines 66-70): create parents (a no-op in this model) and
write `text` at `path`. -/
def write_text (fs : FS) (path text : String) : FS :=
  fun q => if q = path then some text else fs q

/-- `Path.__truediv__` on string paths: `dir / f`. -/
def pathJoin (dir f : String) : String :=
  dir ++ "/" ++ f

/-- Lookup in a Python dict (first, and only, occurrence of the key). -/
def dictLookup : List (YKey × Yaml) → YKey → Option Yaml
  | [], _ => none
  | (k, v) :: rest, k' => if k = k' then some v else dictLookup rest k'

/-- Python dict assignment `d[k] = v`: replace in place if the key exists,
else append at the end (insertion order preserved, as `yaml.dump` with
`sort_keys=False` then serialises it). -/
def dictSet : List (YKey × Yaml) → YKey → Yaml → List (YKey × Yaml)
  | [], k, v => [(k, v)]
  | (k', v') :: rest, k, v =>
      if k' = k then (k, v) :: rest else (k', v') :: dictSet rest k v

/-- Python `item.get(k)` for a string key: `none` for a missing key and for
a stored `null`, exactly as Python returns `None` in both cases. -/
def pyGet (kvs : List (YKey × Yaml)) (k : String) : Option Yaml :=
  match dictLookup kvs (.str k) with
  | some .null => none
  | some v => some v
  | none => none

/-- `docs_dir / filename` (line 86): succeeds only when the value is a
string; `None` or a non-string raises `TypeError`. -/
def pathDiv (dir : String) (v : Option Yaml) : Except String String :=
  match v with
  | some (.str f) => .ok (pathJoin dir f)
  | _ => .error "TypeError: unsupported operand type(s) for /"

/-- One `{"title": ..., "filename": ...}` dict appended to `recipes`
(line 88). -/
structure NavEntry where
  title : Option Yaml
  filename : Option Yaml

/-- Observable outcome of `generate_recipe`: the returned value (or raised
exception), the network calls made, and the usage figures printed. -/
structure GenOut where
  result : Except String String
  calls : List Request
  printed_usage : List Nat

/-- `generate_recipe` (lines 49-63): one `client.complete` call; prints
`response.usage.total_tokens`; returns `response.choices[0].message.content`. -/
def generate_recipe (client : Client) (system_message : String)
    (prompt : Option Yaml) (model_name : String) (max_tokens : Nat) : GenOut :=
  let req : Request := ⟨system_message, prompt, model_name, max_tokens⟩
  match client req with
  | .error e => ⟨.error e, [req], []⟩
  | .ok resp => ⟨.ok resp.content, [req], [resp.total_tokens]⟩

/-- Outcome of a batch run: final filesystem, network calls made (in
order), and the returned navigation list or the raised exception. -/
structure RunOut where
  fs : FS
  calls : List Request
  result : Except String (List NavEntry)

/-- `process_recipes` (lines 73-107). Per item: read the three fields with
`.get` (AttributeError when the item is not a dict), form the target path
(TypeError when `filename` is not a string), append the `{title, filename}`
entry, skip when the target exists, otherwise generate and write. On an
exception the navigation list built so far is lost but filesystem writes
and completed network calls survive. -/
def process_recipes (client : Client) (data : List Yaml)
    (docs_dir system_message model_name : String) (fs : FS) : RunOut :=
  match data with
  | [] => ⟨fs, [], .ok []⟩
  | item :: rest =>
    match item with
    | .map kvs =>
      match pathDiv docs_dir (pyGet kvs "filename") with
      | .error e => ⟨fs, [], .error e⟩
      | .ok target_path =>
        if (fs target_path).isSome then
          let o := process_recipes client rest docs_dir system_message model_name fs
          ⟨o.fs, o.calls, o.result.map (⟨pyGet kvs "title", pyGet kvs "filename"⟩ :: ·)⟩
        else
          let g := generate_recipe client system_message (pyGet kvs "prompt")
            model_name MAX_TOKENS
          match g.result with
          | .error e => ⟨fs, g.calls, .error e⟩
          | .ok content =>
            let o := process_recipes client rest docs_dir system_message model_name
              (write_text fs target_path content)
            ⟨o.fs, g.calls ++ o.calls, o.result.map (⟨pyGet kvs "title", pyGet kvs "filename"⟩ :: ·)⟩
    | _ => ⟨fs, [], .error "AttributeError: object has no attribute get"⟩

/-- The navigation entry an item contributes (line 88): the dict
`{"title": item.get("title"), "filename": item.get("filename")}`. -/
def entryOf : Yaml → NavEntry
  | .map kvs => ⟨pyGet kvs "title", pyGet kvs "filename"⟩
  | _ => ⟨none, none⟩

/-- A Python dict key built from a value: strings and `None` are hashable;
lists and dicts raise `TypeError`. -/
def navKey : Option Yaml → Except String YKey
  | none => .ok .null
  | some .null => .ok .null
  | some (.str s) => .ok (.str s)
  | some _ => .error "TypeError: unhashable type"

/-- Re-embed an optional value as a Python object (`None` for `none`). -/
def yamlOfOpt : Option Yaml → Yaml
  | none => .null
  | some v => v

/-- The list comprehension of line 118:
one single-key dict per navigation item, in order. -/
def buildNav : List NavEntry → Except String (List Yaml)
  | [] => .ok []
  | e :: rest => do
    let k ← navKey e.title
    let tail ← buildNav rest
    .ok (.map [(k, yamlOfOpt e.filename)] :: tail)

/-- `load_yaml` (lines 43-46): open (FileNotFoundError when absent) and
`yaml.safe_load` the file at `path`. -/
def load_yaml_fs (parse : String → Except String Yaml) (fs : FS)
    (path : String) : Except String Yaml :=
  match fs path with
  | none => .error "FileNotFoundError"
  | some txt => parse txt

/-- `load_and_combine_system_messages` (lines 33-40): read both files and
join the stripped contents with a blank line. -/
def load_and_combine_system_messages (fs : FS) (base_path context_path : String) :
    Except String String :=
  match fs base_path, fs context_path with
  | some b, some c => .ok (b.trim ++ "\n\n" ++ c.trim)
  | _, _ => .error "FileNotFoundError"

/-- `update_mkdocs_nav` (lines 110-119): load the site configuration,
require a top-level dict, set its `nav` key to the freshly built list, and
write the dumped document back. -/
def update_mkdocs_nav (parse : String → Except String Yaml) (dump : Yaml → String)
    (nav_items : List NavEntry) (mkdocs_path : String) (fs : FS) :
    Except String FS :=
  match load_yaml_fs parse fs mkdocs_path with
  | .error e => .error e
  | .ok (.map kvs) =>
    match buildNav nav_items with
    | .error e => .error e
    | .ok nav =>
      .ok (write_text fs mkdocs_path (dump (.map (dictSet kvs (.str "nav") (.list nav)))))
  | .ok _ => .error "ValueError: mkdocs.yml must contain a top-level dictionary of configuration options"

/-- Observable outcome of `main`. -/
structure MainOut where
  fs : FS
  calls : List Request
  result : Except String (List NavEntry)

/-- `main` (lines 122-145) with `base_dir = "base"`: combine the system
messages, load `recipes.yml`, require a top-level list, run
`process_recipes` over `base/docs`, then rewrite `base/mkdocs.yml`.
Environment loading and client construction perform no network call and no
file write and are outside the model (the client is a parameter). -/
def main (client : Client) (parse : String → Except String Yaml)
    (dump : Yaml → String) (fs : FS) : MainOut :=
  match load_and_combine_system_messages fs "base/system_message.md" "base/system_message_context.md" with
  | .error e => ⟨fs, [], .error e⟩
  | .ok system_message =>
    match load_yaml_fs parse fs "base/recipes.yml" with
    | .error e => ⟨fs, [], .error e⟩
    | .ok (.list items) =>
      let o := process_recipes client items "base/docs" system_message MODEL_NAME fs
      match o.result with
      | .error e => ⟨o.fs, o.calls, .error e⟩
      | .ok recipes =>
        match update_mkdocs_nav parse dump recipes "base/mkdocs.yml" o.fs with
        | .error e => ⟨o.fs, o.calls, .error e⟩
        | .ok fs₂ => ⟨fs₂, o.calls, .ok recipes⟩
    | .ok _ => ⟨fs, [], .error "ValueError: recipes.yml must contain a top-level list of prompt objects"⟩

/-! ### Concrete fixtures used by the witnesses -/

/-- A deterministic completion client for witnesses: answers with the
prompt string prefixed by a marker. -/
def exClient : Client := fun r =>
  match r.prompt with
  | some (.str p) => .ok ⟨"gen-" ++ p, 7⟩
  | _ => .ok ⟨"gen-noprompt", 7⟩

/-- A fully-populated work item, as `yaml.safe_load` would produce it. -/
def exItem (t f p : String) : Yaml :=
  .map [(.str "title", .str t), (.str "filename", .str f), (.str "prompt", .str p)]

/-- An empty filesystem. -/
def fsEmpty : FS := fun _ => none

/-- A filesystem in which `docs/soup.md` is already present. -/
def exFS : FS := fun q => if q = "docs/soup.md" then some "old soup" else none

/-- The request `process_recipes` issues for an item (lines 95-103). -/
def reqOf (kvs : List (YKey × Yaml)) (system_message model_name : String) : Request :=
  ⟨system_message, pyGet kvs "prompt", model_name, MAX_TOKENS⟩

/-! ### Basic lemmas about the embedding -/

/-- A parse oracle for the witness run of `main`. -/
def exParse : String → Except String Yaml := fun t =>
  if t = "- items" then .ok (.list [exItem "Soup" "soup.md" "p1"])
  else if t = "site" then .ok (.map [(.str "site_name", .str "Demo")])
  else .error "yaml.YAMLError"

/-- The base directory tree for the witness run of `main`. -/
def exMainFS : FS := fun q =>
  if q = "base/system_message.md" then some "sys"
  else if q = "base/system_message_context.md" then some "ctx"
  else if q = "base/recipes.yml" then some "- items"
  else if q = "base/mkdocs.yml" then some "site"
  else none

/-- A dump oracle for the witness run of `main`. -/
def exDump : Yaml → String := fun _ => "dumped"


theorem emap_ok {α β ε : Type} (f : α → β) (a : α) :
    (Except.map f (.ok a) : Except ε β) = .ok (f a) := rfl

theorem emap_error {α β ε : Type} (f : α → β) (e : ε) :
    (Except.map f (.error e) : Except ε β) = .error e := rfl

theorem process_nil (client : Client) (dir s m : String) (fs : FS) :
    process_recipes client [] dir s m fs = ⟨fs, [], .ok []⟩ := rfl

theorem process_cons_skip (client : Client) (kvs : List (YKey × Yaml))
    (rest : List Yaml) (dir s m : String) (fs : FS) (f : String)
    (hf : pyGet kvs "filename" = some (.str f))
    (hex : (fs (pathJoin dir f)).isSome = true) :
    process_recipes client (Yaml.map kvs :: rest) dir s m fs =
      ⟨(process_recipes client rest dir s m fs).fs,
       (process_recipes client rest dir s m fs).calls,
       (process_recipes client rest dir s m fs).result.map
         (⟨pyGet kvs "title", pyGet kvs "filename"⟩ :: ·)⟩ := by
  simp only [process_recipes, hf, pathDiv, hex, if_true]

theorem process_cons_gen_ok (client : Client) (kvs : List (YKey × Yaml))
    (rest : List Yaml) (dir s m : String) (fs : FS) (f : String) (resp : Response)
    (hf : pyGet kvs "filename" = some (.str f))
    (hnew : fs (pathJoin dir f) = none)
    (hcl : client (reqOf kvs s m) = .ok resp) :
    process_recipes client (Yaml.map kvs :: rest) dir s m fs =
      ⟨(process_recipes client rest dir s m
          (write_text fs (pathJoin dir f) resp.content)).fs,
       reqOf kvs s m ::
         (process_recipes client rest dir s m
           (write_text fs (pathJoin dir f) resp.content)).calls,
       (process_recipes client rest dir s m
           (write_text fs (pathJoin dir f) resp.content)).result.map
         (⟨pyGet kvs "title", pyGet kvs "filename"⟩ :: ·)⟩ := by
  simp only [process_recipes, hf, pathDiv, hnew, Option.isSome_none, Bool.false_eq_true,
    if_false, generate_recipe, reqOf] at hcl ⊢
  simp only [hcl, List.singleton_append]

theorem process_cons_gen_error (client : Client) (kvs : List (YKey × Yaml))
    (rest : List Yaml) (dir s m : String) (fs : FS) (f : String) (e : String)
    (hf : pyGet kvs "filename" = some (.str f))
    (hnew : fs (pathJoin dir f) = none)
    (hcl : client (reqOf kvs s m) = .error e) :
    process_recipes client (Yaml.map kvs :: rest) dir s m fs =
      ⟨fs, [reqOf kvs s m], .error e⟩ := by
  simp only [process_recipes, hf, pathDiv, hnew, Option.isSome_none, Bool.false_eq_true,
    if_false, generate_recipe, reqOf] at hcl ⊢
  simp only [hcl]

theorem pathDiv_none (dir : String) :
    pathDiv dir none = .error "TypeError: unsupported operand type(s) for /" := rfl

theorem pathDiv_str (dir f : String) :
    pathDiv dir (some (.str f)) = .ok (pathJoin dir f) := rfl

theorem pathDiv_null (dir : String) :
    pathDiv dir (some .null) = .error "TypeError: unsupported operand type(s) for /" := rfl

theorem pathDiv_list (dir : String) (xs : List Yaml) :
    pathDiv dir (some (.list xs)) = .error "TypeError: unsupported operand type(s) for /" := rfl

theorem pathDiv_map (dir : String) (kvs : List (YKey × Yaml)) :
    pathDiv dir (some (.map kvs)) = .error "TypeError: unsupported operand type(s) for /" := rfl

theorem process_cons_badfn (client : Client) (kvs : List (YKey × Yaml))
    (rest : List Yaml) (dir s m : String) (fs : FS) (e : String)
    (hpd : pathDiv dir (pyGet kvs "filename") = .error e) :
    process_recipes client (Yaml.map kvs :: rest) dir s m fs =
      ⟨fs, [], .error e⟩ := by
  simp only [process_recipes, hpd]

/-- A path that already holds a file is never written again: its content is
identical before and after any batch run (the loop writes only to target
paths that did not exist at the moment of the write). -/
theorem process_fs_preserved (client : Client) (data : List Yaml)
    (dir s m : String) :
    ∀ (fs : FS) (p : String), (fs p).isSome →
      (process_recipes client data dir s m fs).fs p = fs p := by
  induction data with
  | nil => intro fs p _; rfl
  | cons item rest ih =>
    intro fs p hp
    match item with
    | .null => rfl
    | .str _ => rfl
    | .list _ => rfl
    | .map kvs =>
      match hv : pyGet kvs "filename" with
      | none =>
        rw [process_cons_badfn client kvs rest dir s m fs _ (by rw [hv, pathDiv_none])]
      | some .null =>
        rw [process_cons_badfn client kvs rest dir s m fs _ (by rw [hv, pathDiv_null])]
      | some (.list xs) =>
        rw [process_cons_badfn client kvs rest dir s m fs _ (by rw [hv, pathDiv_list])]
      | some (.map kvs₂) =>
        rw [process_cons_badfn client kvs rest dir s m fs _ (by rw [hv, pathDiv_map])]
      | some (.str f) =>
        have hfn : pyGet kvs "filename" = some (.str f) := hv
        by_cases hex : (fs (pathJoin dir f)).isSome
        · rw [process_cons_skip client kvs rest dir s m fs f hfn hex]
          exact ih fs p hp
        · have hnew : fs (pathJoin dir f) = none := by
            cases h : fs (pathJoin dir f) with
            | none => rfl
            | some _ => rw [h] at hex; simp at hex
          cases hcl : client (reqOf kvs s m) with
          | error e =>
            rw [process_cons_gen_error client kvs rest dir s m fs f e hfn hnew hcl]
          | ok resp =>
            rw [process_cons_gen_ok client kvs rest dir s m fs f resp hfn hnew hcl]
            have hne : p ≠ pathJoin dir f := by
              intro h; rw [h, hnew] at hp; simp at hp
            have hw : write_text fs (pathJoin dir f) resp.content p = fs p := by
              rw [write_text]; simp [hne]
            have hp' : (write_text fs (pathJoin dir f) resp.content p).isSome := by
              rw [hw]; exact hp
            rw [ih (write_text fs (pathJoin dir f) resp.content) p hp', hw]

theorem emap_eq_ok {α β ε : Type} {f : α → β} {x : Except ε α} {b : β}
    (h : x.map f = .ok b) : ∃ a, x = .ok a ∧ b = f a := by
  cases x with
  | error e => cases h
  | ok a => exact ⟨a, rfl, by cases h; rfl⟩

theorem emap_eq_error {α β ε : Type} {f : α → β} {x : Except ε α} {e : ε}
    (h : x.map f = .error e) : x = .error e := by
  cases x with
  | error e₂ => cases h; rfl
  | ok a => cases h

/-- Splitting a batch run at a list append: the run on `l₁ ++ l₂` is the run
on `l₁` when that run raises. -/
theorem process_append_error (client : Client) (l₁ l₂ : List Yaml)
    (dir s m : String) :
    ∀ (fs : FS) (e : String),
      (process_recipes client l₁ dir s m fs).result = .error e →
      process_recipes client (l₁ ++ l₂) dir s m fs =
        process_recipes client l₁ dir s m fs := by
  induction l₁ with
  | nil => intro fs e h; cases h
  | cons item rest ih =>
    intro fs e h
    match item with
    | .null => rfl
    | .str _ => rfl
    | .list _ => rfl
    | .map kvs =>
      simp only [List.cons_append]
      match hv : pyGet kvs "filename" with
      | none =>
        rw [process_cons_badfn client kvs (rest ++ l₂) dir s m fs _ (by rw [hv, pathDiv_none]),
          process_cons_badfn client kvs rest dir s m fs _ (by rw [hv, pathDiv_none])]
      | some .null =>
        rw [process_cons_badfn client kvs (rest ++ l₂) dir s m fs _ (by rw [hv, pathDiv_null]),
          process_cons_badfn client kvs rest dir s m fs _ (by rw [hv, pathDiv_null])]
      | some (.list xs) =>
        rw [process_cons_badfn client kvs (rest ++ l₂) dir s m fs _ (by rw [hv, pathDiv_list]),
          process_cons_badfn client kvs rest dir s m fs _ (by rw [hv, pathDiv_list])]
      | some (.map kvs₂) =>
        rw [process_cons_badfn client kvs (rest ++ l₂) dir s m fs _ (by rw [hv, pathDiv_map]),
          process_cons_badfn client kvs rest dir s m fs _ (by rw [hv, pathDiv_map])]
      | some (.str f) =>
        by_cases hex : (fs (pathJoin dir f)).isSome
        · rw [process_cons_skip client kvs (rest ++ l₂) dir s m fs f hv hex,
            process_cons_skip client kvs rest dir s m fs f hv hex]
          rw [process_cons_skip client kvs rest dir s m fs f hv hex] at h
          simp only at h
          have hrest := emap_eq_error h
          rw [ih fs e hrest, hrest]
        · have hnew : fs (pathJoin dir f) = none := by
            cases hfs : fs (pathJoin dir f) with
            | none => rfl
            | some _ => rw [hfs] at hex; simp at hex
          cases hcl : client (reqOf kvs s m) with
          | error e₂ =>
            rw [process_cons_gen_error client kvs (rest ++ l₂) dir s m fs f e₂ hv hnew hcl,
              process_cons_gen_error client kvs rest dir s m fs f e₂ hv hnew hcl]
          | ok resp =>
            rw [process_cons_gen_ok client kvs (rest ++ l₂) dir s m fs f resp hv hnew hcl,
              process_cons_gen_ok client kvs rest dir s m fs f resp hv hnew hcl]
            rw [process_cons_gen_ok client kvs rest dir s m fs f resp hv hnew hcl] at h
            simp only at h
            have hrest := emap_eq_error h
            rw [ih _ e hrest, hrest]

/-- Splitting a batch run at a list append: when the run on `l₁` returns
normally, the run on `l₁ ++ l₂` continues on `l₂` from the filesystem `l₁`
left, concatenating call traces and navigation lists. -/
theorem process_append_ok (client : Client) (l₁ l₂ : List Yaml)
    (dir s m : String) :
    ∀ (fs : FS) (nav₁ : List NavEntry),
      (process_recipes client l₁ dir s m fs).result = .ok nav₁ →
      process_recipes client (l₁ ++ l₂) dir s m fs =
        ⟨(process_recipes client l₂ dir s m (process_recipes client l₁ dir s m fs).fs).fs,
         (process_recipes client l₁ dir s m fs).calls ++
           (process_recipes client l₂ dir s m (process_recipes client l₁ dir s m fs).fs).calls,
         (process_recipes client l₂ dir s m (process_recipes client l₁ dir s m fs).fs).result.map
           (nav₁ ++ ·)⟩ := by
  induction l₁ with
  | nil =>
    intro fs nav₁ h
    rw [process_nil] at h
    simp only at h
    cases h
    rw [process_nil]
    simp only [List.nil_append]
    cases hr : (process_recipes client l₂ dir s m fs).result with
    | error e =>
      conv_lhs => rw [show process_recipes client l₂ dir s m fs =
        ⟨(process_recipes client l₂ dir s m fs).fs,
         (process_recipes client l₂ dir s m fs).calls,
         (process_recipes client l₂ dir s m fs).result⟩ from rfl]
      rw [hr]
      simp [emap_error]
    | ok nav =>
      conv_lhs => rw [show process_recipes client l₂ dir s m fs =
        ⟨(process_recipes client l₂ dir s m fs).fs,
         (process_recipes client l₂ dir s m fs).calls,
         (process_recipes client l₂ dir s m fs).result⟩ from rfl]
      rw [hr]
      simp [emap_ok]
  | cons item rest ih =>
    intro fs nav₁ h
    match item with
    | .null => cases h
    | .str _ => cases h
    | .list _ => cases h
    | .map kvs =>
      simp only [List.cons_append]
      match hv : pyGet kvs "filename" with
      | none =>
        rw [process_cons_badfn client kvs rest dir s m fs _ (by rw [hv, pathDiv_none])] at h
        cases h
      | some .null =>
        rw [process_cons_badfn client kvs rest dir s m fs _ (by rw [hv, pathDiv_null])] at h
        cases h
      | some (.list xs) =>
        rw [process_cons_badfn client kvs rest dir s m fs _ (by rw [hv, pathDiv_list])] at h
        cases h
      | some (.map kvs₂) =>
        rw [process_cons_badfn client kvs rest dir s m fs _ (by rw [hv, pathDiv_map])] at h
        cases h
      | some (.str f) =>
        by_cases hex : (fs (pathJoin dir f)).isSome
        · rw [process_cons_skip client kvs rest dir s m fs f hv hex] at h
          simp only at h
          obtain ⟨nav', hrest, rfl⟩ := emap_eq_ok h
          rw [process_cons_skip client kvs (rest ++ l₂) dir s m fs f hv hex,
            process_cons_skip client kvs rest dir s m fs f hv hex]
          rw [ih fs nav' hrest]
          simp only [hrest]
          cases hr : (process_recipes client l₂ dir s m
              (process_recipes client rest dir s m fs).fs).result with
          | error e => simp [hr, emap_error]
          | ok nav => simp [hr, emap_ok]
        · have hnew : fs (pathJoin dir f) = none := by
            cases hfs : fs (pathJoin dir f) with
            | none => rfl
            | some _ => rw [hfs] at hex; simp at hex
          cases hcl : client (reqOf kvs s m) with
          | error e₂ =>
            rw [process_cons_gen_error client kvs rest dir s m fs f e₂ hv hnew hcl] at h
            cases h
          | ok resp =>
            rw [process_cons_gen_ok client kvs rest dir s m fs f resp hv hnew hcl] at h
            simp only at h
            obtain ⟨nav', hrest, rfl⟩ := emap_eq_ok h
            rw [process_cons_gen_ok client kvs (rest ++ l₂) dir s m fs f resp hv hnew hcl,
              process_cons_gen_ok client kvs rest dir s m fs f resp hv hnew hcl]
            rw [ih _ nav' hrest]
            simp only [hrest]
            cases hr : (process_recipes client l₂ dir s m
                (process_recipes client rest dir s m
                  (write_text fs (pathJoin dir f) resp.content)).fs).result with
            | error e => simp [hr, emap_error]
            | ok nav => simp [hr, emap_ok]

theorem write_text_self (fs : FS) (p c : String) : write_text fs p c p = some c := by
  simp [write_text]

theorem write_text_other (fs : FS) (p c q : String) (h : q ≠ p) :
    write_text fs p c q = fs q := by
  simp [write_text, h]

/-- A run that returns normally returns exactly one `{title, filename}`
entry per input item, in input order (skipped or generated alike). -/
theorem process_result_nav (client : Client) (data : List Yaml) (dir s m : String) :
    ∀ (fs : FS) (nav : List NavEntry),
      (process_recipes client data dir s m fs).result = .ok nav →
      nav = data.map entryOf := by
  induction data with
  | nil => intro fs nav h; rw [process_nil] at h; cases h; rfl
  | cons item rest ih =>
    intro fs nav h
    match item with
    | .null => cases h
    | .str _ => cases h
    | .list _ => cases h
    | .map kvs =>
      match hv : pyGet kvs "filename" with
      | none =>
        rw [process_cons_badfn client kvs rest dir s m fs _ (by rw [hv, pathDiv_none])] at h
        cases h
      | some .null =>
        rw [process_cons_badfn client kvs rest dir s m fs _ (by rw [hv, pathDiv_null])] at h
        cases h
      | some (.list xs) =>
        rw [process_cons_badfn client kvs rest dir s m fs _ (by rw [hv, pathDiv_list])] at h
        cases h
      | some (.map kvs₂) =>
        rw [process_cons_badfn client kvs rest dir s m fs _ (by rw [hv, pathDiv_map])] at h
        cases h
      | some (.str f) =>
        by_cases hex : (fs (pathJoin dir f)).isSome
        · rw [process_cons_skip client kvs rest dir s m fs f hv hex] at h
          simp only at h
          obtain ⟨nav', hrest, rfl⟩ := emap_eq_ok h
          rw [ih fs nav' hrest, List.map_cons]
          rfl
        · have hnew : fs (pathJoin dir f) = none := by
            cases hfs : fs (pathJoin dir f) with
            | none => rfl
            | some _ => rw [hfs] at hex; simp at hex
          cases hcl : client (reqOf kvs s m) with
          | error e₂ =>
            rw [process_cons_gen_error client kvs rest dir s m fs f e₂ hv hnew hcl] at h
            cases h
          | ok resp =>
            rw [process_cons_gen_ok client kvs rest dir s m fs f resp hv hnew hcl] at h
            simp only at h
            obtain ⟨nav', hrest, rfl⟩ := emap_eq_ok h
            rw [ih _ nav' hrest, List.map_cons]
            rfl

/-- After a run that returns normally, the target path of every input item
exists in the final filesystem (it was either found or just written). -/
theorem process_path_exists (client : Client) (data : List Yaml) (dir s m : String) :
    ∀ (fs : FS) (nav : List NavEntry) (kvs : List (YKey × Yaml)) (f : String),
      Yaml.map kvs ∈ data → pyGet kvs "filename" = some (.str f) →
      (process_recipes client data dir s m fs).result = .ok nav →
      ((process_recipes client data dir s m fs).fs (pathJoin dir f)).isSome := by
  induction data with
  | nil => intro fs nav kvs f hmem _ _; cases hmem
  | cons item rest ih =>
    intro fs nav kvs f hmem hf h
    match item with
    | .null => cases h
    | .str _ => cases h
    | .list _ => cases h
    | .map kvs₁ =>
      match hv : pyGet kvs₁ "filename" with
      | none =>
        rw [process_cons_badfn client kvs₁ rest dir s m fs _ (by rw [hv, pathDiv_none])] at h
        cases h
      | some .null =>
        rw [process_cons_badfn client kvs₁ rest dir s m fs _ (by rw [hv, pathDiv_null])] at h
        cases h
      | some (.list xs) =>
        rw [process_cons_badfn client kvs₁ rest dir s m fs _ (by rw [hv, pathDiv_list])] at h
        cases h
      | some (.map kvs₂) =>
        rw [process_cons_badfn client kvs₁ rest dir s m fs _ (by rw [hv, pathDiv_map])] at h
        cases h
      | some (.str f₁) =>
        by_cases hex : (fs (pathJoin dir f₁)).isSome
        · rw [process_cons_skip client kvs₁ rest dir s m fs f₁ hv hex] at h ⊢
          simp only at h ⊢
          obtain ⟨nav', hrest, rfl⟩ := emap_eq_ok h
          rcases List.mem_cons.mp hmem with heq | hmem'
          · have hff : f = f₁ := by
              cases heq
              rw [hv] at hf
              cases hf
              rfl
            rw [hff, process_fs_preserved client rest dir s m fs (pathJoin dir f₁) hex]
            exact hex
          · exact ih fs nav' kvs f hmem' hf hrest
        · have hnew : fs (pathJoin dir f₁) = none := by
            cases hfs : fs (pathJoin dir f₁) with
            | none => rfl
            | some _ => rw [hfs] at hex; simp at hex
          cases hcl : client (reqOf kvs₁ s m) with
          | error e₂ =>
            rw [process_cons_gen_error client kvs₁ rest dir s m fs f₁ e₂ hv hnew hcl] at h
            cases h
          | ok resp =>
            rw [process_cons_gen_ok client kvs₁ rest dir s m fs f₁ resp hv hnew hcl] at h ⊢
            simp only at h ⊢
            obtain ⟨nav', hrest, rfl⟩ := emap_eq_ok h
            rcases List.mem_cons.mp hmem with heq | hmem'
            · have hff : f = f₁ := by
                cases heq
                rw [hv] at hf
                cases hf
                rfl
              have hw : (write_text fs (pathJoin dir f₁) resp.content (pathJoin dir f₁)).isSome := by
                rw [write_text_self]; rfl
              rw [hff, process_fs_preserved client rest dir s m _ (pathJoin dir f₁) hw,
                write_text_self]
              rfl
            · exact ih _ nav' kvs f hmem' hf hrest

/-- Re-running the batch on the filesystem a normal run left behind changes
nothing, returns the same navigation list, and makes zero network calls:
every target file already exists. -/
theorem process_rerun (client : Client) (data : List Yaml) (dir s m : String) :
    ∀ (fs : FS) (nav : List NavEntry),
      (process_recipes client data dir s m fs).result = .ok nav →
      process_recipes client data dir s m (process_recipes client data dir s m fs).fs =
        ⟨(process_recipes client data dir s m fs).fs, [], .ok nav⟩ := by
  induction data with
  | nil => intro fs nav h; rw [process_nil] at h; cases h; rfl
  | cons item rest ih =>
    intro fs nav h
    match item with
    | .null => cases h
    | .str _ => cases h
    | .list _ => cases h
    | .map kvs =>
      match hv : pyGet kvs "filename" with
      | none =>
        rw [process_cons_badfn client kvs rest dir s m fs _ (by rw [hv, pathDiv_none])] at h
        cases h
      | some .null =>
        rw [process_cons_badfn client kvs rest dir s m fs _ (by rw [hv, pathDiv_null])] at h
        cases h
      | some (.list xs) =>
        rw [process_cons_badfn client kvs rest dir s m fs _ (by rw [hv, pathDiv_list])] at h
        cases h
      | some (.map kvs₂) =>
        rw [process_cons_badfn client kvs rest dir s m fs _ (by rw [hv, pathDiv_map])] at h
        cases h
      | some (.str f) =>
        by_cases hex : (fs (pathJoin dir f)).isSome
        · rw [process_cons_skip client kvs rest dir s m fs f hv hex] at h ⊢
          simp only at h
          obtain ⟨nav', hrest, rfl⟩ := emap_eq_ok h
          have hex₂ : ((process_recipes client rest dir s m fs).fs (pathJoin dir f)).isSome := by
            rw [process_fs_preserved client rest dir s m fs (pathJoin dir f) hex]
            exact hex
          rw [process_cons_skip client kvs rest dir s m _ f hv hex₂, ih fs nav' hrest]
          simp [emap_ok]
        · have hnew : fs (pathJoin dir f) = none := by
            cases hfs : fs (pathJoin dir f) with
            | none => rfl
            | some _ => rw [hfs] at hex; simp at hex
          cases hcl : client (reqOf kvs s m) with
          | error e₂ =>
            rw [process_cons_gen_error client kvs rest dir s m fs f e₂ hv hnew hcl] at h
            cases h
          | ok resp =>
            rw [process_cons_gen_ok client kvs rest dir s m fs f resp hv hnew hcl] at h ⊢
            simp only at h
            obtain ⟨nav', hrest, rfl⟩ := emap_eq_ok h
            have hw : (write_text fs (pathJoin dir f) resp.content (pathJoin dir f)).isSome := by
              rw [write_text_self]; rfl
            have hex₂ : ((process_recipes client rest dir s m
                (write_text fs (pathJoin dir f) resp.content)).fs (pathJoin dir f)).isSome := by
              rw [process_fs_preserved client rest dir s m _ (pathJoin dir f) hw]
              exact hw
            rw [process_cons_skip client kvs rest dir s m _ f hv hex₂, ih _ nav' hrest]
            simp [emap_ok]

theorem pathJoin_inj (dir : String) {f₁ f₂ : String}
    (h : pathJoin dir f₁ = pathJoin dir f₂) : f₁ = f₂ := by
  rw [pathJoin, pathJoin] at h
  have h₂ := congrArg String.data h
  rw [String.data_append, String.data_append] at h₂
  have h₃ := List.append_cancel_left h₂
  cases f₁
  cases f₂
  exact congrArg String.mk h₃

/-- No filename can make a docs-directory target collide with the path
string of the site configuration file. -/
theorem pathJoin_docs_ne_mkdocs (f : String) :
    pathJoin "base/docs" f ≠ "base/mkdocs.yml" := by
  intro h
  rw [pathJoin] at h
  have h₂ := congrArg String.data h
  rw [String.data_append, String.data_append] at h₂
  have h5 : ("base/docs".data ++ "/".data ++ f.data)[5]? = "base/mkdocs.yml".data[5]? := by
    rw [h₂]
  rw [List.getElem?_append, if_pos (by decide)] at h5
  simp at h5

/-- The batch loop leaves every path untouched that is not the docs target
of some input item. -/
theorem process_fs_fresh (client : Client) (data : List Yaml) (dir s m : String) :
    ∀ (fs : FS) (p : String),
      (∀ kvs f, Yaml.map kvs ∈ data → pyGet kvs "filename" = some (.str f) →
        pathJoin dir f ≠ p) →
      (process_recipes client data dir s m fs).fs p = fs p := by
  induction data with
  | nil => intro fs p _; rfl
  | cons item rest ih =>
    intro fs p hp
    have hp' : ∀ kvs f, Yaml.map kvs ∈ rest → pyGet kvs "filename" = some (.str f) →
        pathJoin dir f ≠ p := by
      intro kvs f hmem
      exact hp kvs f (List.mem_cons_of_mem item hmem)
    match item with
    | .null => rfl
    | .str _ => rfl
    | .list _ => rfl
    | .map kvs =>
      match hv : pyGet kvs "filename" with
      | none =>
        rw [process_cons_badfn client kvs rest dir s m fs _ (by rw [hv, pathDiv_none])]
      | some .null =>
        rw [process_cons_badfn client kvs rest dir s m fs _ (by rw [hv, pathDiv_null])]
      | some (.list xs) =>
        rw [process_cons_badfn client kvs rest dir s m fs _ (by rw [hv, pathDiv_list])]
      | some (.map kvs₂) =>
        rw [process_cons_badfn client kvs rest dir s m fs _ (by rw [hv, pathDiv_map])]
      | some (.str f) =>
        by_cases hex : (fs (pathJoin dir f)).isSome
        · rw [process_cons_skip client kvs rest dir s m fs f hv hex]
          exact ih fs p hp'
        · have hnew : fs (pathJoin dir f) = none := by
            cases hfs : fs (pathJoin dir f) with
            | none => rfl
            | some _ => rw [hfs] at hex; simp at hex
          cases hcl : client (reqOf kvs s m) with
          | error e₂ =>
            rw [process_cons_gen_error client kvs rest dir s m fs f e₂ hv hnew hcl]
          | ok resp =>
            rw [process_cons_gen_ok client kvs rest dir s m fs f resp hv hnew hcl]
            have hne : pathJoin dir f ≠ p :=
              hp kvs f (List.mem_cons_self _ _) hv
            rw [ih _ p hp', write_text_other fs (pathJoin dir f) resp.content p
              (fun h => hne h.symm)]

/-- Removal equivalence: an item whose target exists by the time the loop
reaches it changes nothing about the run except inserting its navigation
entry at its input position --- same final filesystem, same network calls. -/
theorem process_removal (client : Client) (pre post : List Yaml) (dir s m : String)
    (fs : FS) (kvs : List (YKey × Yaml)) (f : String)
    (hfn : pyGet kvs "filename" = some (.str f))
    (hcond : ∀ nav₁, (process_recipes client pre dir s m fs).result = .ok nav₁ →
      ((process_recipes client pre dir s m fs).fs (pathJoin dir f)).isSome) :
    process_recipes client (pre ++ Yaml.map kvs :: post) dir s m fs =
      ⟨(process_recipes client (pre ++ post) dir s m fs).fs,
       (process_recipes client (pre ++ post) dir s m fs).calls,
       (process_recipes client (pre ++ post) dir s m fs).result.map
         (fun l => l.take pre.length ++
           (⟨pyGet kvs "title", pyGet kvs "filename"⟩ : NavEntry) :: l.drop pre.length)⟩ := by
  cases hr : (process_recipes client pre dir s m fs).result with
  | error e =>
    rw [process_append_error client pre (Yaml.map kvs :: post) dir s m fs e hr,
      process_append_error client pre post dir s m fs e hr]
    have hres : (process_recipes client pre dir s m fs).result.map
        (fun l => l.take pre.length ++
          (⟨pyGet kvs "title", pyGet kvs "filename"⟩ : NavEntry) :: l.drop pre.length) =
        (process_recipes client pre dir s m fs).result := by
      rw [hr]; rfl
    rw [hres]
  | ok nav₁ =>
    have hex := hcond nav₁ hr
    have hlen : nav₁.length = pre.length := by
      rw [process_result_nav client pre dir s m fs nav₁ hr, List.length_map]
    rw [process_append_ok client pre (Yaml.map kvs :: post) dir s m fs nav₁ hr,
      process_append_ok client pre post dir s m fs nav₁ hr,
      process_cons_skip client kvs post dir s m _ f hfn hex]
    simp only
    cases ho : (process_recipes client post dir s m
        (process_recipes client pre dir s m fs).fs).result with
    | error e => simp [ho, emap_error]
    | ok nav₂ =>
      simp only [ho, emap_ok]
      congr 1
      simp only [Except.ok.injEq]
      rw [← hlen, List.take_left, List.drop_left]

/-! ### Claim theorems -/

/-- C1: a work item whose target output file already exists before the run
is never sent to the completion client and its file is never written (the
content at its path is unchanged); the run is identical to the run without
that item --- same filesystem, same network calls --- except that the
item's `{title, filename}` entry is still inserted at the item's position
in the returned navigation list. -/
theorem preexisting_target_untouched (client : Client) (pre post : List Yaml)
    (dir s m : String) (fs : FS) (kvs : List (YKey × Yaml)) (f : String)
    (hfn : pyGet kvs "filename" = some (.str f))
    (hex : (fs (pathJoin dir f)).isSome) :
    (process_recipes client (pre ++ Yaml.map kvs :: post) dir s m fs).fs (pathJoin dir f)
        = fs (pathJoin dir f)
    ∧ (process_recipes client (pre ++ Yaml.map kvs :: post) dir s m fs).fs
        = (process_recipes client (pre ++ post) dir s m fs).fs
    ∧ (process_recipes client (pre ++ Yaml.map kvs :: post) dir s m fs).calls
        = (process_recipes client (pre ++ post) dir s m fs).calls
    ∧ (process_recipes client (pre ++ Yaml.map kvs :: post) dir s m fs).result
        = (process_recipes client (pre ++ post) dir s m fs).result.map
            (fun l => l.take pre.length ++
              (⟨pyGet kvs "title", pyGet kvs "filename"⟩ : NavEntry) :: l.drop pre.length)
    ∧ ∀ nav, (process_recipes client (pre ++ Yaml.map kvs :: post) dir s m fs).result = .ok nav →
        (⟨pyGet kvs "title", pyGet kvs "filename"⟩ : NavEntry) ∈ nav := by
  have hcond : ∀ nav₁, (process_recipes client pre dir s m fs).result = .ok nav₁ →
      ((process_recipes client pre dir s m fs).fs (pathJoin dir f)).isSome := by
    intro nav₁ _
    rw [process_fs_preserved client pre dir s m fs (pathJoin dir f) hex]
    exact hex
  have hrem := process_removal client pre post dir s m fs kvs f hfn hcond
  refine ⟨?_, ?_, ?_, ?_, ?_⟩
  · rw [hrem]
    simp only
    rw [process_fs_preserved client (pre ++ post) dir s m fs (pathJoin dir f) hex]
  · rw [hrem]
  · rw [hrem]
  · rw [hrem]
  · intro nav hnav
    rw [hrem] at hnav
    simp only at hnav
    obtain ⟨l, _, rfl⟩ := emap_eq_ok hnav
    simp

/-- C1 witness: with `docs/soup.md` already on disk, running on
`[Soup, Stew]` leaves the soup file untouched, makes exactly the calls of
the run without the Soup item, and still lists Soup in the navigation. -/
theorem preexisting_target_untouched_witness :
    (process_recipes exClient ([] ++ exItem "Soup" "soup.md" "p1" :: [exItem "Stew" "stew.md" "p2"])
        "docs" "sys" "gpt-4.1" exFS).fs (pathJoin "docs" "soup.md")
      = exFS (pathJoin "docs" "soup.md")
    ∧ (process_recipes exClient ([] ++ exItem "Soup" "soup.md" "p1" :: [exItem "Stew" "stew.md" "p2"])
        "docs" "sys" "gpt-4.1" exFS).calls
      = (process_recipes exClient ([] ++ [exItem "Stew" "stew.md" "p2"])
        "docs" "sys" "gpt-4.1" exFS).calls := by
  have h := preexisting_target_untouched exClient [] [exItem "Stew" "stew.md" "p2"]
    "docs" "sys" "gpt-4.1" exFS
    [(.str "title", .str "Soup"), (.str "filename", .str "soup.md"), (.str "prompt", .str "p1")]
    "soup.md" rfl rfl
  exact ⟨h.1, h.2.2.1⟩

/-- C2: immediately re-running the batch on the filesystem a successful
first run produced changes nothing, makes zero network calls, and returns
the same navigation list: every target file already exists. -/
theorem second_run_no_network_calls (client : Client) (data : List Yaml)
    (dir s m : String) (fs : FS) (nav : List NavEntry)
    (h : (process_recipes client data dir s m fs).result = .ok nav) :
    process_recipes client data dir s m (process_recipes client data dir s m fs).fs =
      ⟨(process_recipes client data dir s m fs).fs, [], .ok nav⟩ :=
  process_rerun client data dir s m fs nav h

/-- C2 witness: a concrete successful two-item first run; the second run is
a no-op with an empty call trace. -/
theorem second_run_no_network_calls_witness :
    process_recipes exClient [exItem "Soup" "soup.md" "p1", exItem "Stew" "stew.md" "p2"]
        "docs" "sys" "gpt-4.1"
        (process_recipes exClient [exItem "Soup" "soup.md" "p1", exItem "Stew" "stew.md" "p2"]
          "docs" "sys" "gpt-4.1" fsEmpty).fs =
      ⟨(process_recipes exClient [exItem "Soup" "soup.md" "p1", exItem "Stew" "stew.md" "p2"]
          "docs" "sys" "gpt-4.1" fsEmpty).fs, [],
       .ok [⟨some (.str "Soup"), some (.str "soup.md")⟩,
            ⟨some (.str "Stew"), some (.str "stew.md")⟩]⟩ :=
  second_run_no_network_calls exClient
    [exItem "Soup" "soup.md" "p1", exItem "Stew" "stew.md" "p2"]
    "docs" "sys" "gpt-4.1" fsEmpty
    [⟨some (.str "Soup"), some (.str "soup.md")⟩,
     ⟨some (.str "Stew"), some (.str "stew.md")⟩] rfl

/-- C3: the navigation list a successful run returns has exactly one
`{title, filename}` entry per input item, in input order, no matter which
items were skipped and which were generated. -/
theorem nav_matches_input_order (client : Client) (data : List Yaml)
    (dir s m : String) (fs : FS) (nav : List NavEntry)
    (h : (process_recipes client data dir s m fs).result = .ok nav) :
    nav = data.map entryOf :=
  process_result_nav client data dir s m fs nav h

/-- C3 witness: a run in which the first item is skipped and the second is
generated still returns both entries in input order. -/
theorem nav_matches_input_order_witness :
    [(⟨some (.str "Soup"), some (.str "soup.md")⟩ : NavEntry),
     ⟨some (.str "Stew"), some (.str "stew.md")⟩] =
      [exItem "Soup" "soup.md" "p1", exItem "Stew" "stew.md" "p2"].map entryOf :=
  nav_matches_input_order exClient
    [exItem "Soup" "soup.md" "p1", exItem "Stew" "stew.md" "p2"]
    "docs" "sys" "gpt-4.1" exFS
    [⟨some (.str "Soup"), some (.str "soup.md")⟩,
     ⟨some (.str "Stew"), some (.str "stew.md")⟩] rfl

/-- C10: in a successful run, an item whose filename already occurred
earlier in the list adds no network call --- the run equals the run without
it, file for file and call for call --- yet its own navigation entry is
still inserted at its input position. -/
theorem duplicate_filename_adds_no_call (client : Client) (pre post : List Yaml)
    (dir s m : String) (fs : FS) (kvs kvs₀ : List (YKey × Yaml)) (f : String)
    (nav : List NavEntry)
    (hmem : Yaml.map kvs₀ ∈ pre)
    (hf₀ : pyGet kvs₀ "filename" = some (.str f))
    (hfn : pyGet kvs "filename" = some (.str f))
    (hok : (process_recipes client (pre ++ Yaml.map kvs :: post) dir s m fs).result = .ok nav) :
    (process_recipes client (pre ++ Yaml.map kvs :: post) dir s m fs).fs
        = (process_recipes client (pre ++ post) dir s m fs).fs
    ∧ (process_recipes client (pre ++ Yaml.map kvs :: post) dir s m fs).calls
        = (process_recipes client (pre ++ post) dir s m fs).calls
    ∧ ∃ nav', (process_recipes client (pre ++ post) dir s m fs).result = .ok nav'
        ∧ nav = nav'.take pre.length ++
            (⟨pyGet kvs "title", pyGet kvs "filename"⟩ : NavEntry) :: nav'.drop pre.length := by
  have hcond : ∀ nav₁, (process_recipes client pre dir s m fs).result = .ok nav₁ →
      ((process_recipes client pre dir s m fs).fs (pathJoin dir f)).isSome := by
    intro nav₁ h₁
    exact process_path_exists client pre dir s m fs nav₁ kvs₀ f hmem hf₀ h₁
  have hrem := process_removal client pre post dir s m fs kvs f hfn hcond
  refine ⟨?_, ?_, ?_⟩
  · rw [hrem]
  · rw [hrem]
  · rw [hrem] at hok
    simp only at hok
    obtain ⟨nav', hres, rfl⟩ := emap_eq_ok hok
    exact ⟨nav', hres, rfl⟩

/-- C10 witness: two items sharing `dup.md` with different prompts; the run
with the duplicate has the same filesystem and the same single call as the
run without it, and both entries are returned. -/
theorem duplicate_filename_adds_no_call_witness :
    (process_recipes exClient
        ([exItem "A" "dup.md" "p1"] ++ exItem "B" "dup.md" "p2" :: [])
        "docs" "sys" "gpt-4.1" fsEmpty).calls
      = (process_recipes exClient ([exItem "A" "dup.md" "p1"] ++ [])
        "docs" "sys" "gpt-4.1" fsEmpty).calls
    ∧ ∃ nav', (process_recipes exClient ([exItem "A" "dup.md" "p1"] ++ [])
        "docs" "sys" "gpt-4.1" fsEmpty).result = .ok nav'
        ∧ [(⟨some (.str "A"), some (.str "dup.md")⟩ : NavEntry),
           ⟨some (.str "B"), some (.str "dup.md")⟩]
          = nav'.take 1 ++
            (⟨some (.str "B"), some (.str "dup.md")⟩ : NavEntry) :: nav'.drop 1 := by
  have h := duplicate_filename_adds_no_call exClient [exItem "A" "dup.md" "p1"] []
    "docs" "sys" "gpt-4.1" fsEmpty
    [(.str "title", .str "B"), (.str "filename", .str "dup.md"), (.str "prompt", .str "p2")]
    [(.str "title", .str "A"), (.str "filename", .str "dup.md"), (.str "prompt", .str "p1")]
    "dup.md"
    [⟨some (.str "A"), some (.str "dup.md")⟩, ⟨some (.str "B"), some (.str "dup.md")⟩]
    (List.mem_singleton.mpr rfl) rfl rfl rfl
  exact ⟨h.2.1, h.2.2⟩

/-- C4 (amended): a work item whose target file does not exist before the
run, and whose filename no earlier item shares, ends a successful run with
its file holding exactly the text the completion client returned for that
item's request. (Without the freshness hypothesis the claim fails: an
earlier item with the same filename writes the file first and the later
item is skipped, see the counterexample.) -/
theorem fresh_unique_target_gets_item_content (client : Client) (pre post : List Yaml)
    (dir s m : String) (fs : FS) (kvs : List (YKey × Yaml)) (f : String)
    (nav : List NavEntry)
    (hfn : pyGet kvs "filename" = some (.str f))
    (hnew : fs (pathJoin dir f) = none)
    (hfresh : ∀ kvs₀ f₀, Yaml.map kvs₀ ∈ pre →
      pyGet kvs₀ "filename" = some (.str f₀) → f₀ ≠ f)
    (hok : (process_recipes client (pre ++ Yaml.map kvs :: post) dir s m fs).result = .ok nav) :
    ∃ resp, client (reqOf kvs s m) = .ok resp ∧
      (process_recipes client (pre ++ Yaml.map kvs :: post) dir s m fs).fs (pathJoin dir f)
        = some resp.content := by
  cases hr : (process_recipes client pre dir s m fs).result with
  | error e =>
    rw [process_append_error client pre (Yaml.map kvs :: post) dir s m fs e hr, hr] at hok
    cases hok
  | ok nav₁ =>
    have hfs₁ : (process_recipes client pre dir s m fs).fs (pathJoin dir f) = none := by
      rw [process_fs_fresh client pre dir s m fs (pathJoin dir f) ?_, hnew]
      intro kvs₀ f₀ hmem hf₀ hpj
      exact hfresh kvs₀ f₀ hmem hf₀ (pathJoin_inj dir hpj)
    rw [process_append_ok client pre (Yaml.map kvs :: post) dir s m fs nav₁ hr] at hok ⊢
    simp only at hok ⊢
    cases hcl : client (reqOf kvs s m) with
    | error e₂ =>
      rw [process_cons_gen_error client kvs post dir s m _ f e₂ hfn hfs₁ hcl] at hok
      simp only [emap_error] at hok
      cases hok
    | ok resp =>
      refine ⟨resp, rfl, ?_⟩
      rw [process_cons_gen_ok client kvs post dir s m _ f resp hfn hfs₁ hcl]
      simp only
      have hw : ((write_text (process_recipes client pre dir s m fs).fs (pathJoin dir f)
          resp.content) (pathJoin dir f)).isSome := by
        rw [write_text_self]; rfl
      rw [process_fs_preserved client post dir s m _ (pathJoin dir f) hw, write_text_self]

/-- C4 counterexample: two items share `dup.md` with different prompts; the
run succeeds and the target did not exist before, yet the file ends with
the FIRST item's generated text, not the second item's, refuting the claim
as stated for the second item. -/
theorem fresh_target_content_counterexample :
    (process_recipes exClient [exItem "A" "dup.md" "p1", exItem "B" "dup.md" "p2"]
        "docs" "sys" "gpt-4.1" fsEmpty).result
      = .ok [⟨some (.str "A"), some (.str "dup.md")⟩, ⟨some (.str "B"), some (.str "dup.md")⟩]
    ∧ fsEmpty (pathJoin "docs" "dup.md") = none
    ∧ exClient ⟨"sys", some (.str "p2"), "gpt-4.1", 30000⟩ = .ok ⟨"gen-p2", 7⟩
    ∧ (process_recipes exClient [exItem "A" "dup.md" "p1", exItem "B" "dup.md" "p2"]
        "docs" "sys" "gpt-4.1" fsEmpty).fs (pathJoin "docs" "dup.md") = some "gen-p1"
    ∧ some "gen-p1" ≠ some "gen-p2" :=
  ⟨rfl, rfl, rfl, rfl, by decide⟩

/-- C4 witness: single fresh item Soup with empty filesystem; after the run
its file holds the client's text for its prompt. -/
theorem fresh_unique_target_gets_item_content_witness :
    ∃ resp, exClient (reqOf [(.str "title", .str "Soup"), (.str "filename", .str "soup.md"),
        (.str "prompt", .str "p1")] "sys" "gpt-4.1") = .ok resp ∧
      (process_recipes exClient ([] ++ exItem "Soup" "soup.md" "p1" :: [])
        "docs" "sys" "gpt-4.1" fsEmpty).fs (pathJoin "docs" "soup.md") = some resp.content :=
  fresh_unique_target_gets_item_content exClient [] [] "docs" "sys" "gpt-4.1" fsEmpty
    [(.str "title", .str "Soup"), (.str "filename", .str "soup.md"), (.str "prompt", .str "p1")]
    "soup.md" [⟨some (.str "Soup"), some (.str "soup.md")⟩]
    rfl rfl (fun _ _ hmem => absurd hmem (List.not_mem_nil _)) rfl

/-- C5: when the work-item source does not parse to a top-level list
(whatever else happens while loading), the run raises before any network
call is made and before any file is written. -/
theorem malformed_source_fails_before_any_effect (client : Client)
    (parse : String → Except String Yaml) (dump : Yaml → String) (fs : FS)
    (h : ∀ txt, fs "base/recipes.yml" = some txt →
      ∀ y, parse txt = .ok y → ∀ items, y ≠ .list items) :
    ∃ e, main client parse dump fs = ⟨fs, [], .error e⟩ := by
  unfold main
  cases hsys : load_and_combine_system_messages fs "base/system_message.md"
      "base/system_message_context.md" with
  | error e => exact ⟨e, rfl⟩
  | ok sys =>
    cases hry : load_yaml_fs parse fs "base/recipes.yml" with
    | error e => exact ⟨e, rfl⟩
    | ok y =>
      have hy : ∀ items, y ≠ Yaml.list items := by
        unfold load_yaml_fs at hry
        cases hfs : fs "base/recipes.yml" with
        | none => rw [hfs] at hry; cases hry
        | some txt =>
          rw [hfs] at hry
          exact h txt hfs y hry
      match y with
      | .list items => exact absurd rfl (hy items)
      | .null => exact ⟨_, rfl⟩
      | .str _ => exact ⟨_, rfl⟩
      | .map _ => exact ⟨_, rfl⟩

/-- C5 witness: a source file that parses to a dict makes the run fail with
no calls and an unchanged filesystem. -/
theorem malformed_source_fails_before_any_effect_witness :
    ∃ e, main exClient (fun _ => .ok (.map [])) (fun _ => "dumped")
      (fun q => if q = "base/system_message.md" then some "sys"
        else if q = "base/system_message_context.md" then some "ctx"
        else if q = "base/recipes.yml" then some "- x" else none) =
      ⟨(fun q => if q = "base/system_message.md" then some "sys"
        else if q = "base/system_message_context.md" then some "ctx"
        else if q = "base/recipes.yml" then some "- x" else none), [], .error e⟩ :=
  malformed_source_fails_before_any_effect exClient (fun _ => .ok (.map []))
    (fun _ => "dumped") _
    (fun txt _ y hy items => by cases hy; intro hc; cases hc)

theorem dictLookup_dictSet_self (kvs : List (YKey × Yaml)) (k : YKey) (v : Yaml) :
    dictLookup (dictSet kvs k v) k = some v := by
  induction kvs with
  | nil => simp [dictSet, dictLookup]
  | cons kv rest ih =>
    obtain ⟨k', v'⟩ := kv
    by_cases h : k' = k
    · simp [dictSet, h, dictLookup]
    · simp [dictSet, h, dictLookup, ih]

theorem dictLookup_dictSet_other (kvs : List (YKey × Yaml)) (k k₂ : YKey) (v : Yaml)
    (h : k₂ ≠ k) : dictLookup (dictSet kvs k v) k₂ = dictLookup kvs k₂ := by
  have hne : ¬ k = k₂ := fun hc => h hc.symm
  induction kvs with
  | nil =>
    simp only [dictSet, dictLookup]
    rw [if_neg hne]
  | cons kv rest ih =>
    obtain ⟨k', v'⟩ := kv
    by_cases hk : k' = k
    · subst hk
      simp only [dictSet, if_pos rfl, dictLookup]
      rw [if_neg hne, if_neg hne]
    · simp only [dictSet, if_neg hk, dictLookup, ih]

/-- On entries with string titles and filenames, the line-118 comprehension
builds one single-key `{title: filename}` dict per entry, in order. -/
theorem buildNav_entries (entries : List (String × String)) :
    buildNav (entries.map fun e => (⟨some (.str e.1), some (.str e.2)⟩ : NavEntry)) =
      .ok (entries.map fun e => .map [(.str e.1, .str e.2)]) := by
  induction entries with
  | nil => rfl
  | cons e rest ih =>
    simp only [List.map_cons, buildNav, navKey, ih, yamlOfOpt]
    rfl

/-- C6: on a site-configuration document parsing to a top-level dict,
`update_mkdocs_nav` writes back the dumped document whose `nav` key now
holds the ordered title-to-filename one-key dicts and whose every other
key is unchanged; on any other parse result it raises `ValueError`. -/
theorem nav_replaced_rest_of_mkdocs_preserved (parse : String → Except String Yaml)
    (dump : Yaml → String) (entries : List (String × String))
    (mkdocs_path : String) (fs : FS) (txt : String) (kvs : List (YKey × Yaml))
    (hread : fs mkdocs_path = some txt) :
    (parse txt = .ok (.map kvs) →
      update_mkdocs_nav parse dump (entries.map fun e => ⟨some (.str e.1), some (.str e.2)⟩)
          mkdocs_path fs
        = .ok (write_text fs mkdocs_path (dump (.map (dictSet kvs (.str "nav")
            (.list (entries.map fun e => .map [(.str e.1, .str e.2)]))))))
      ∧ dictLookup (dictSet kvs (.str "nav")
            (.list (entries.map fun e => .map [(.str e.1, .str e.2)]))) (.str "nav")
          = some (.list (entries.map fun e => .map [(.str e.1, .str e.2)]))
      ∧ ∀ k, k ≠ .str "nav" →
          dictLookup (dictSet kvs (.str "nav")
              (.list (entries.map fun e => .map [(.str e.1, .str e.2)]))) k
            = dictLookup kvs k)
    ∧ (∀ y, parse txt = .ok y → (∀ kvs₂, y ≠ .map kvs₂) →
        update_mkdocs_nav parse dump (entries.map fun e => ⟨some (.str e.1), some (.str e.2)⟩)
            mkdocs_path fs
          = .error "ValueError: mkdocs.yml must contain a top-level dictionary of configuration options") := by
  constructor
  · intro hparse
    refine ⟨?_, dictLookup_dictSet_self kvs _ _,
      fun k hk => dictLookup_dictSet_other kvs _ k _ hk⟩
    unfold update_mkdocs_nav load_yaml_fs
    rw [hread]
    simp only [hparse, buildNav_entries]
  · intro y hparse hnotmap
    match y with
    | .map kvs₂ => exact absurd rfl (hnotmap kvs₂)
    | .null =>
      unfold update_mkdocs_nav load_yaml_fs
      rw [hread]
      simp only [hparse]
    | .str _ =>
      unfold update_mkdocs_nav load_yaml_fs
      rw [hread]
      simp only [hparse]
    | .list _ =>
      unfold update_mkdocs_nav load_yaml_fs
      rw [hread]
      simp only [hparse]

/-- C6 witness: a concrete two-entry navigation on a dict document with a
`site_name` key and a stale `nav` key: the nav value is replaced in place
and `site_name` is preserved; a list document raises instead. -/
theorem nav_replaced_rest_of_mkdocs_preserved_witness :
    (update_mkdocs_nav (fun t => if t = "cfg" then
          .ok (.map [(.str "site_name", .str "Demo"), (.str "nav", .str "stale")]) else .error "bad")
        (fun _ => "dumped")
        ([("Soup", "soup.md"), ("Stew", "stew.md")].map fun e =>
          (⟨some (.str e.1), some (.str e.2)⟩ : NavEntry))
        "base/mkdocs.yml" (fun q => if q = "base/mkdocs.yml" then some "cfg" else none)
      = .ok (write_text (fun q => if q = "base/mkdocs.yml" then some "cfg" else none)
          "base/mkdocs.yml" "dumped"))
    ∧ dictLookup (dictSet [(.str "site_name", .str "Demo"), (.str "nav", .str "stale")]
          (.str "nav") (.list ([("Soup", "soup.md"), ("Stew", "stew.md")].map fun e =>
            .map [(.str e.1, .str e.2)]))) (.str "site_name") = some (.str "Demo") := by
  have h := nav_replaced_rest_of_mkdocs_preserved
    (fun t => if t = "cfg" then
      .ok (.map [(.str "site_name", .str "Demo"), (.str "nav", .str "stale")]) else .error "bad")
    (fun _ => "dumped") [("Soup", "soup.md"), ("Stew", "stew.md")] "base/mkdocs.yml"
    (fun q => if q = "base/mkdocs.yml" then some "cfg" else none) "cfg"
    [(.str "site_name", .str "Demo"), (.str "nav", .str "stale")] rfl
  have h₁ := h.1 rfl
  exact ⟨h₁.1, h₁.2.2 (.str "site_name") (by decide)⟩

/-- C7 counterexample: an entry with no `title` key does not fail fast: the
run succeeds, `None` is silently substituted, and the entry appears in the
navigation list with a null title. -/
theorem missing_title_not_failing_counterexample :
    (process_recipes exClient
        [.map [(.str "filename", .str "a.md"), (.str "prompt", .str "p")]]
        "docs" "sys" "gpt-4.1" (fun q => if q = "docs/a.md" then some "c" else none)).result
      = .ok [⟨none, some (.str "a.md")⟩]
    ∧ (process_recipes exClient
        [.map [(.str "filename", .str "a.md"), (.str "prompt", .str "p")]]
        "docs" "sys" "gpt-4.1" (fun q => if q = "docs/a.md" then some "c" else none)).calls
      = [] :=
  ⟨rfl, rfl⟩

/-- C7 (amended): only a missing (or null) `filename` fails fast, with a
`TypeError` raised before the entry is recorded; an entry missing `title`
or `prompt` does not fail --- `None` is silently substituted, the item is
processed normally (with a null title in its navigation entry and a null
prompt in its request) and is never silently dropped. -/
theorem missing_fields_fail_only_for_filename (client : Client)
    (kvs : List (YKey × Yaml)) (rest : List Yaml) (dir s m : String) (fs : FS) :
    (pyGet kvs "filename" = none →
      process_recipes client (Yaml.map kvs :: rest) dir s m fs
        = ⟨fs, [], .error "TypeError: unsupported operand type(s) for /"⟩)
    ∧ (∀ f, pyGet kvs "filename" = some (.str f) → (fs (pathJoin dir f)).isSome →
      process_recipes client (Yaml.map kvs :: rest) dir s m fs
        = ⟨(process_recipes client rest dir s m fs).fs,
           (process_recipes client rest dir s m fs).calls,
           (process_recipes client rest dir s m fs).result.map
             (⟨pyGet kvs "title", pyGet kvs "filename"⟩ :: ·)⟩)
    ∧ (∀ f resp, pyGet kvs "filename" = some (.str f) → fs (pathJoin dir f) = none →
      client (reqOf kvs s m) = .ok resp →
      process_recipes client (Yaml.map kvs :: rest) dir s m fs
        = ⟨(process_recipes client rest dir s m
              (write_text fs (pathJoin dir f) resp.content)).fs,
           reqOf kvs s m ::
             (process_recipes client rest dir s m
               (write_text fs (pathJoin dir f) resp.content)).calls,
           (process_recipes client rest dir s m
               (write_text fs (pathJoin dir f) resp.content)).result.map
             (⟨pyGet kvs "title", pyGet kvs "filename"⟩ :: ·)⟩) := by
  refine ⟨?_, ?_, ?_⟩
  · intro h
    exact process_cons_badfn client kvs rest dir s m fs _ (by rw [h, pathDiv_none])
  · intro f hf hex
    exact process_cons_skip client kvs rest dir s m fs f hf hex
  · intro f resp hf hnew hcl
    exact process_cons_gen_ok client kvs rest dir s m fs f resp hf hnew hcl

/-- C7 witness: an entry with no filename raises the TypeError; an entry
with only a filename (no title, no prompt) is processed without error and
contributes a null-titled navigation entry. -/
theorem missing_fields_fail_only_for_filename_witness :
    process_recipes exClient [Yaml.map [(.str "title", .str "T")]]
        "docs" "sys" "gpt-4.1" fsEmpty
      = ⟨fsEmpty, [], .error "TypeError: unsupported operand type(s) for /"⟩
    ∧ process_recipes exClient [Yaml.map [(.str "filename", .str "a.md")]]
        "docs" "sys" "gpt-4.1" (fun q => if q = "docs/a.md" then some "c" else none)
      = ⟨(fun q => if q = "docs/a.md" then some "c" else none), [],
         .ok [⟨none, some (.str "a.md")⟩]⟩ := by
  constructor
  · exact (missing_fields_fail_only_for_filename exClient [(.str "title", .str "T")]
      [] "docs" "sys" "gpt-4.1" fsEmpty).1 rfl
  · exact (missing_fields_fail_only_for_filename exClient [(.str "filename", .str "a.md")]
      [] "docs" "sys" "gpt-4.1" (fun q => if q = "docs/a.md" then some "c" else none)).2.1
      "a.md" rfl rfl

/-- C8 counterexample: the adapter's return value does not carry the
token-usage count: two clients whose responses differ only in
`usage.total_tokens` produce identical return values, so `generate_recipe`
does not return a (text, tokenCount) pair. -/
theorem adapter_return_lacks_tokens_counterexample :
    (generate_recipe (fun _ => .ok ⟨"text", 10⟩) "s" none "m" MAX_TOKENS).result
      = (generate_recipe (fun _ => .ok ⟨"text", 99⟩) "s" none "m" MAX_TOKENS).result
    ∧ (10 : Nat) ≠ 99 :=
  ⟨rfl, by decide⟩

/-- C8 (amended): per invocation the adapter makes exactly one network
call, returns exactly the response's generated text (raising the client's
error unswallowed otherwise), and prints --- rather than returns --- the
response's token-usage count. -/
theorem adapter_single_call_returns_text (client : Client) (s : String)
    (p : Option Yaml) (m : String) :
    (generate_recipe client s p m MAX_TOKENS).calls = [⟨s, p, m, MAX_TOKENS⟩]
    ∧ (∀ resp, client ⟨s, p, m, MAX_TOKENS⟩ = .ok resp →
        (generate_recipe client s p m MAX_TOKENS).result = .ok resp.content
        ∧ (generate_recipe client s p m MAX_TOKENS).printed_usage = [resp.total_tokens])
    ∧ (∀ e, client ⟨s, p, m, MAX_TOKENS⟩ = .error e →
        (generate_recipe client s p m MAX_TOKENS).result = .error e) := by
  refine ⟨?_, ?_, ?_⟩
  · simp only [generate_recipe]
    cases h : client ⟨s, p, m, MAX_TOKENS⟩ <;> rfl
  · intro resp h
    simp only [generate_recipe, h]
    exact ⟨by trivial, by trivial⟩
  · intro e h
    simp only [generate_recipe, h]

/-- C8 witness: the concrete client answers once, the text comes back as
the return value and the usage figure is printed. -/
theorem adapter_single_call_returns_text_witness :
    (generate_recipe exClient "sys" (some (.str "p1")) "gpt-4.1" MAX_TOKENS).calls
      = [⟨"sys", some (.str "p1"), "gpt-4.1", MAX_TOKENS⟩]
    ∧ (generate_recipe exClient "sys" (some (.str "p1")) "gpt-4.1" MAX_TOKENS).result
      = .ok "gen-p1"
    ∧ (generate_recipe exClient "sys" (some (.str "p1")) "gpt-4.1" MAX_TOKENS).printed_usage
      = [7] := by
  have h := adapter_single_call_returns_text exClient "sys" (some (.str "p1")) "gpt-4.1"
  exact ⟨h.1, (h.2.1 ⟨"gen-p1", 7⟩ rfl).1, (h.2.1 ⟨"gen-p1", 7⟩ rfl).2⟩

/-- Whenever `update_mkdocs_nav` returns a filesystem, that filesystem is
the input one plus a single write of a dumped document at the site
configuration path. -/
theorem update_ok_shape (parse : String → Except String Yaml) (dump : Yaml → String)
    (nav_items : List NavEntry) (mkdocs_path : String) (fs : FS) (fs₂ : FS)
    (h : update_mkdocs_nav parse dump nav_items mkdocs_path fs = .ok fs₂) :
    ∃ doc, fs₂ = write_text fs mkdocs_path (dump doc) := by
  unfold update_mkdocs_nav at h
  cases hly : load_yaml_fs parse fs mkdocs_path with
  | error e => rw [hly] at h; cases h
  | ok y =>
    rw [hly] at h
    cases y with
    | map kvs =>
      cases hb : buildNav nav_items with
      | error e => rw [hb] at h; cases h
      | ok nav =>
        rw [hb] at h
        cases h
        exact ⟨_, rfl⟩
    | null => cases h
    | str s₂ => cases h
    | list xs => cases h

/-- C9: the site-configuration file is written at most once per run and
only after every work item has been processed: on any failing run its
content is unchanged, and on a successful run the final filesystem is the
post-processing filesystem --- in which the file is still unchanged ---
plus one single write of the freshly dumped document. -/
theorem mkdocs_written_once_after_all_items (client : Client)
    (parse : String → Except String Yaml) (dump : Yaml → String) (fs : FS) :
    (∀ e, (main client parse dump fs).result = .error e →
      (main client parse dump fs).fs "base/mkdocs.yml" = fs "base/mkdocs.yml")
    ∧ (∀ nav, (main client parse dump fs).result = .ok nav →
      ∃ fs₁ doc, (main client parse dump fs).fs = write_text fs₁ "base/mkdocs.yml" (dump doc)
        ∧ fs₁ "base/mkdocs.yml" = fs "base/mkdocs.yml") := by
  simp only [main]
  split
  · exact ⟨fun _ _ => rfl, fun nav h => by cases h⟩
  · split
    · exact ⟨fun _ _ => rfl, fun nav h => by cases h⟩
    · rename_i _ sys _ _ items _
      have hfs₁ : (process_recipes client items "base/docs" sys MODEL_NAME fs).fs
          "base/mkdocs.yml" = fs "base/mkdocs.yml" :=
        process_fs_fresh client items "base/docs" sys MODEL_NAME fs "base/mkdocs.yml"
          (fun _ f _ _ => pathJoin_docs_ne_mkdocs f)
      split
      · exact ⟨fun _ _ => hfs₁, fun nav h => by cases h⟩
      · split
        · exact ⟨fun _ _ => hfs₁, fun nav h => by cases h⟩
        · rename_i _ recipes _ _ fs₂ hup
          constructor
          · intro e h
            cases h
          · intro nav _
            obtain ⟨doc, hdoc⟩ := update_ok_shape parse dump recipes "base/mkdocs.yml" _ fs₂ hup
            exact ⟨(process_recipes client items "base/docs" sys MODEL_NAME fs).fs, doc,
              (by rw [hdoc]), hfs₁⟩
    · exact ⟨fun _ _ => rfl, fun nav h => by cases h⟩

/-- C9 witness: a complete successful concrete run; the final filesystem is
one single mkdocs write on top of a filesystem whose mkdocs content is the
original one. -/
theorem mkdocs_written_once_after_all_items_witness :
    ∃ fs₁ doc, (main exClient exParse exDump exMainFS).fs
        = write_text fs₁ "base/mkdocs.yml" (exDump doc)
      ∧ fs₁ "base/mkdocs.yml" = exMainFS "base/mkdocs.yml" :=
  (mkdocs_written_once_after_all_items exClient exParse exDump exMainFS).2
    [⟨some (.str "Soup"), some (.str "soup.md")⟩] rfl

end RecipeGen
